import Mathlib

/-!
Verification of the molecular-similarity notebook
(`python/chemistry/chemistry.ipynb`).

The notebook loads `smiles.csv`, splits the contents on newlines, deletes
the header and the empty final line, splits every remaining line on tabs
into a record `{'name': elements[0], 'smiles': elements[1]}`, and then
scans the record list with `most_similar`, which tracks the maximal
fingerprint similarity that is strictly below 1.

Text is embedded as `List Char`; Python exceptions (`UnboundLocalError`
in `most_similar`, `IndexError` in loading and parsing) are embedded as
`none`; the similarity scores returned by the external rdkit library are
embedded as rationals; the external library itself is a parameter
(a `ChemLib` structure of total functions).
-/

namespace Chemistry

/-- Text, embedded as a list of characters. -/
abbrev Str := List Char

/-- Python's `s.split(sep)` for a one-character separator: splitting the
empty text yields `[[]]`, a separator at the end yields a final empty
piece, exactly as in Python. -/
def splitOnChar (sep : Char) : Str → List Str
  | [] => [[]]
  | c :: cs =>
    if c = sep then [] :: splitOnChar sep cs
    else
      match splitOnChar sep cs with
      | [] => [[c]]
      | w :: ws => (c :: w) :: ws

/-- One record of the `molecules` list:
`{'name': elements[0], 'smiles': elements[1]}`. -/
structure Molecule where
  name : Str
  smiles : Str
deriving DecidableEq

/-- One step of the parsing loop body: `elements = l.split('\t')` followed
by indexing `elements[0]` and `elements[1]`; when the line has no tab the
indexing `elements[1]` raises `IndexError`, embedded as `none`. -/
def parseLine (l : Str) : Option Molecule :=
  match splitOnChar '\t' l with
  | e0 :: e1 :: _ => some ⟨e0, e1⟩
  | _ => none

/-- The parsing loop `for l in lines: ... molecules.append(...)`; a raised
`IndexError` aborts the loop, embedded as `none`. -/
def parseMolecules : List Str → Option (List Molecule)
  | [] => some []
  | l :: rest =>
    match parseLine l with
    | none => none
    | some m =>
      match parseMolecules rest with
      | none => none
      | some ms => some (m :: ms)

/-- The loading cell: `lines = f.read().split('\n')`, then `del lines[0]`
(always possible, the split is never empty) and `del lines[-1]` (raises
`IndexError`, embedded as `none`, when only one line existed, i.e. when
the contents have no newline), then the parsing loop. -/
def loadMolecules (contents : Str) : Option (List Molecule) :=
  match splitOnChar '\n' contents with
  | [] => none
  | _ :: rest =>
    if rest = [] then none
    else parseMolecules rest.dropLast

/-- The lines the parsing loop runs over: all lines of the file except the
first (the header) and the last (the empty final line). -/
def middleLines (contents : Str) : List Str :=
  ((splitOnChar '\n' contents).tail).dropLast

/-- The externally supplied cheminformatics library: the three rdkit
functions the notebook calls, as total functions over abstract molecule
and fingerprint types. -/
structure ChemLib (Mol FP : Type) where
  MolFromSmiles : Str → Mol
  RDKFingerprint : Mol → FP
  FingerprintSimilarity : FP → FP → ℚ

/-- Similarity of one SMILES string against a query fingerprint:
`DataStructs.FingerprintSimilarity(Chem.RDKFingerprint(Chem.MolFromSmiles(s)), query_fp)`. -/
def simTo {Mol FP : Type} (lib : ChemLib Mol FP) (query_fp : FP) (s : Str) : ℚ :=
  lib.FingerprintSimilarity (lib.RDKFingerprint (lib.MolFromSmiles s)) query_fp

/-- The state of `most_similar`: the two loop variables together with the
global `molecules` list that the loop reads. `best_mol = none` models the
variable `best_mol` being unassigned. -/
structure SearchState where
  max_similarity : ℚ
  best_mol : Option Molecule
  molecules : List Molecule

/-- One iteration of the `for test_mol in molecules` loop: compute the
similarity and update `max_similarity` and `best_mol` only when
`max_similarity < similarity < 1`. -/
def loopBody {Mol FP : Type} (lib : ChemLib Mol FP) (query_fp : FP)
    (st : SearchState) (test_mol : Molecule) : SearchState :=
  let similarity := simTo lib query_fp test_mol.smiles
  if st.max_similarity < similarity ∧ similarity < 1 then
    { st with max_similarity := similarity, best_mol := some test_mol }
  else st

/-- The search loop, iterating in order over the list the iterator yields. -/
def searchLoop {Mol FP : Type} (lib : ChemLib Mol FP) (query_fp : FP) :
    SearchState → List Molecule → SearchState
  | st, [] => st
  | st, test_mol :: rest => searchLoop lib query_fp (loopBody lib query_fp st test_mol) rest

/-- The function `most_similar(query_smiles)` over a given `molecules`
list: `max_similarity = 0`, `best_mol` unassigned, fingerprint the query,
run the loop, and return `best_mol` (still `none` — Python's
`UnboundLocalError` — when no iteration assigned it). -/
def most_similar {Mol FP : Type} (lib : ChemLib Mol FP)
    (molecules : List Molecule) (query_smiles : Str) : Option Molecule :=
  let query_fp := lib.RDKFingerprint (lib.MolFromSmiles query_smiles)
  (searchLoop lib query_fp ⟨0, none, molecules⟩ molecules).best_mol

/-- Running the search from a full program state: the loop iterates over
the global `st.molecules`. -/
def runSearch {Mol FP : Type} (lib : ChemLib Mol FP) (query_smiles : Str)
    (st : SearchState) : SearchState :=
  let query_fp := lib.RDKFingerprint (lib.MolFromSmiles query_smiles)
  searchLoop lib query_fp st st.molecules

/-- The search loop instrumented with the sequence of SMILES strings on
which the loop body invokes the external fingerprint and similarity
functions, in invocation order; the computation itself is unchanged. -/
def searchLoopCalls {Mol FP : Type} (lib : ChemLib Mol FP) (query_fp : FP) :
    SearchState → List Molecule → SearchState × List Str
  | st, [] => (st, [])
  | st, test_mol :: rest =>
    let p := searchLoopCalls lib query_fp (loopBody lib query_fp st test_mol) rest
    (p.1, test_mol.smiles :: p.2)

/-- The full sequence of SMILES strings `most_similar` hands to the
external library: the query (fingerprinted before the loop), then the
loop's invocation sequence. -/
def mostSimilarCalls {Mol FP : Type} (lib : ChemLib Mol FP)
    (molecules : List Molecule) (query_smiles : Str) : List Str :=
  query_smiles ::
    (searchLoopCalls lib (lib.RDKFingerprint (lib.MolFromSmiles query_smiles))
      ⟨0, none, molecules⟩ molecules).2

/-- Reference search as the specification words it: a single left fold
over the record list, threading the running maximum and its argument. -/
def mostSimilarFold {Mol FP : Type} (lib : ChemLib Mol FP)
    (molecules : List Molecule) (query_smiles : Str) : Option Molecule :=
  let query_fp := lib.RDKFingerprint (lib.MolFromSmiles query_smiles)
  (molecules.foldl
    (fun acc test_mol =>
      if acc.1 < simTo lib query_fp test_mol.smiles ∧
          simTo lib query_fp test_mol.smiles < 1 then
        (simTo lib query_fp test_mol.smiles, some test_mol)
      else acc)
    ((0 : ℚ), (none : Option Molecule))).2

/-- Fuel-indexed version of the search loop: one unit of fuel per
iteration, `none` when the fuel runs out before the list does. -/
def searchLoopFuel {Mol FP : Type} (lib : ChemLib Mol FP) (query_fp : FP) :
    Nat → SearchState → List Molecule → Option SearchState
  | _, st, [] => some st
  | fuel + 1, st, test_mol :: rest =>
    searchLoopFuel lib query_fp fuel (loopBody lib query_fp st test_mol) rest
  | 0, _, _ :: _ => none

/-- The ambient inputs of one run of the notebook: the contents of
`smiles.csv`, the one line typed at the console prompt, and ambient data
the program never reads (other files, shared state, a schedule). -/
structure World where
  fileContents : Str
  consoleInput : Str
  otherFiles : List Str
  sharedState : List Nat
  schedule : List Nat

/-- One full run of the notebook: load the file, search with the console
input as query, and report the best record together with the printed name
and SMILES; `none` when loading or the search raised. -/
def programRun {Mol FP : Type} (lib : ChemLib Mol FP) (w : World) :
    Option (List Molecule × Molecule × Str × Str) :=
  match loadMolecules w.fileContents with
  | none => none
  | some molecules =>
    match most_similar lib molecules w.consoleInput with
    | none => none
    | some best_mol => some (molecules, best_mol, best_mol.name, best_mol.smiles)

/-- Concrete instance of the external library used on concrete inputs:
molecules and fingerprints are the SMILES text itself, a fingerprint
scores 1 against an identical one, the fingerprint of `X` scores 1/2
against anything else, and any other pair scores 0. -/
def exLib : ChemLib Str Str where
  MolFromSmiles := fun s => s
  RDKFingerprint := fun m => m
  FingerprintSimilarity := fun a b =>
    if a = b then 1 else if a = ['X'] then mkRat 1 2 else 0

/-- Unfolding of the loop body when the update condition holds. -/
theorem loopBody_pos {Mol FP : Type} (lib : ChemLib Mol FP) (query_fp : FP)
    (st : SearchState) (test_mol : Molecule)
    (h : st.max_similarity < simTo lib query_fp test_mol.smiles ∧
      simTo lib query_fp test_mol.smiles < 1) :
    loopBody lib query_fp st test_mol =
      { st with max_similarity := simTo lib query_fp test_mol.smiles,
                best_mol := some test_mol } := by
  simp [loopBody, h]

/-- Unfolding of the loop body when the update condition fails. -/
theorem loopBody_neg {Mol FP : Type} (lib : ChemLib Mol FP) (query_fp : FP)
    (st : SearchState) (test_mol : Molecule)
    (h : ¬ (st.max_similarity < simTo lib query_fp test_mol.smiles ∧
      simTo lib query_fp test_mol.smiles < 1)) :
    loopBody lib query_fp st test_mol = st := by
  simp only [loopBody]
  exact if_neg h

/-- Main invariant of the search loop, from an arbitrary starting state:
the running maximum only grows, it bounds every sub-1 score seen, and
`best_mol` is either untouched (with the maximum untouched) or the first
record of some decomposition whose sub-1 score is the final maximum and
strictly exceeds every earlier sub-1 score and the starting maximum. -/
theorem searchLoop_spec {Mol FP : Type} (lib : ChemLib Mol FP) (query_fp : FP)
    (ms : List Molecule) (st : SearchState) :
    st.max_similarity ≤ (searchLoop lib query_fp st ms).max_similarity ∧
    (∀ m ∈ ms, simTo lib query_fp m.smiles < 1 →
      simTo lib query_fp m.smiles ≤ (searchLoop lib query_fp st ms).max_similarity) ∧
    (((searchLoop lib query_fp st ms).best_mol = st.best_mol ∧
      (searchLoop lib query_fp st ms).max_similarity = st.max_similarity) ∨
      ∃ l₁ m l₂, ms = l₁ ++ m :: l₂ ∧
        (searchLoop lib query_fp st ms).best_mol = some m ∧
        (searchLoop lib query_fp st ms).max_similarity = simTo lib query_fp m.smiles ∧
        simTo lib query_fp m.smiles < 1 ∧
        st.max_similarity < simTo lib query_fp m.smiles ∧
        ∀ m' ∈ l₁, simTo lib query_fp m'.smiles < 1 →
          simTo lib query_fp m'.smiles < simTo lib query_fp m.smiles) := by
  induction ms generalizing st with
  | nil =>
    refine ⟨le_refl _, ?_, Or.inl ⟨rfl, rfl⟩⟩
    intro m hm
    exact absurd hm (List.not_mem_nil m)
  | cons a rest ih =>
    have hloop : searchLoop lib query_fp st (a :: rest) =
        searchLoop lib query_fp (loopBody lib query_fp st a) rest := rfl
    by_cases hcond : st.max_similarity < simTo lib query_fp a.smiles ∧
        simTo lib query_fp a.smiles < 1
    · have hb := loopBody_pos lib query_fp st a hcond
      obtain ⟨ih1, ih2, ih3⟩ := ih (loopBody lib query_fp st a)
      have hmax' : (loopBody lib query_fp st a).max_similarity =
          simTo lib query_fp a.smiles := by rw [hb]
      have hbest' : (loopBody lib query_fp st a).best_mol = some a := by rw [hb]
      refine ⟨?_, ?_, ?_⟩
      · rw [hloop]
        exact le_of_lt (lt_of_lt_of_le hcond.1 (hmax' ▸ ih1))
      · intro m hm hm1
        rw [hloop]
        rcases List.mem_cons.mp hm with h | h
        · subst h
          exact hmax' ▸ ih1
        · exact ih2 m h hm1
      · rw [hloop]
        rcases ih3 with ⟨hbeq, hmeq⟩ | ⟨l₁, m, l₂, heq, hbm, hmm, hm1, hgt, hfst⟩
        · refine Or.inr ⟨[], a, rest, rfl, ?_, ?_, hcond.2, hcond.1, ?_⟩
          · rw [hbeq, hbest']
          · rw [hmeq, hmax']
          · intro m' hm'
            exact absurd hm' (List.not_mem_nil m')
        · refine Or.inr ⟨a :: l₁, m, l₂, by rw [heq, List.cons_append], hbm, hmm, hm1, ?_, ?_⟩
          · exact lt_trans hcond.1 (hmax' ▸ hgt)
          · intro m' hm' hm'1
            rcases List.mem_cons.mp hm' with h | h
            · subst h
              exact hmax' ▸ hgt
            · exact hfst m' h hm'1
    · have hb := loopBody_neg lib query_fp st a hcond
      have hloop2 : searchLoop lib query_fp st (a :: rest) =
          searchLoop lib query_fp st rest := by rw [hloop, hb]
      obtain ⟨ih1, ih2, ih3⟩ := ih st
      refine ⟨?_, ?_, ?_⟩
      · rw [hloop2]; exact ih1
      · intro m hm hm1
        rw [hloop2]
        rcases List.mem_cons.mp hm with h | h
        · subst h
          have hle : simTo lib query_fp m.smiles ≤ st.max_similarity := by
            by_contra hlt
            exact hcond ⟨lt_of_not_le hlt, hm1⟩
          exact le_trans hle ih1
        · exact ih2 m h hm1
      · rw [hloop2]
        rcases ih3 with ⟨hbeq, hmeq⟩ | ⟨l₁, m, l₂, heq, hbm, hmm, hm1, hgt, hfst⟩
        · exact Or.inl ⟨hbeq, hmeq⟩
        · refine Or.inr ⟨a :: l₁, m, l₂, by rw [heq, List.cons_append], hbm, hmm, hm1, hgt, ?_⟩
          intro m' hm' hm'1
          rcases List.mem_cons.mp hm' with h | h
          · subst h
            have hle : simTo lib query_fp m'.smiles ≤ st.max_similarity := by
              by_contra hlt
              exact hcond ⟨lt_of_not_le hlt, hm'1⟩
            exact lt_of_le_of_lt hle hgt
          · exact hfst m' h hm'1

/-- When every score is 0 or 1 and the running maximum is non-negative,
the loop never updates its state. -/
theorem searchLoop_const_of_degenerate {Mol FP : Type} (lib : ChemLib Mol FP)
    (query_fp : FP) (ms : List Molecule) (st : SearchState)
    (h0 : 0 ≤ st.max_similarity)
    (h : ∀ m ∈ ms, simTo lib query_fp m.smiles = 0 ∨ simTo lib query_fp m.smiles = 1) :
    searchLoop lib query_fp st ms = st := by
  induction ms with
  | nil => rfl
  | cons a rest ih =>
    have hcond : ¬ (st.max_similarity < simTo lib query_fp a.smiles ∧
        simTo lib query_fp a.smiles < 1) := by
      rcases h a (List.mem_cons_self a rest) with h0' | h1'
      · intro hc
        rw [h0'] at hc
        exact absurd hc.1 (not_lt.mpr h0)
      · intro hc
        rw [h1'] at hc
        exact absurd hc.2 (lt_irrefl 1)
    have hb := loopBody_neg lib query_fp st a hcond
    have : searchLoop lib query_fp st (a :: rest) =
        searchLoop lib query_fp st rest := by
      show searchLoop lib query_fp (loopBody lib query_fp st a) rest = _
      rw [hb]
    rw [this]
    exact ih (fun m hm => h m (List.mem_cons_of_mem a hm))

/-- The loop body never touches the global `molecules` list. -/
theorem loopBody_molecules {Mol FP : Type} (lib : ChemLib Mol FP) (query_fp : FP)
    (st : SearchState) (test_mol : Molecule) :
    (loopBody lib query_fp st test_mol).molecules = st.molecules := by
  simp only [loopBody]
  split <;> rfl

/-- The search loop never touches the global `molecules` list. -/
theorem searchLoop_molecules {Mol FP : Type} (lib : ChemLib Mol FP) (query_fp : FP)
    (ms : List Molecule) (st : SearchState) :
    (searchLoop lib query_fp st ms).molecules = st.molecules := by
  induction ms generalizing st with
  | nil => rfl
  | cons a rest ih =>
    show (searchLoop lib query_fp (loopBody lib query_fp st a) rest).molecules = _
    rw [ih (loopBody lib query_fp st a), loopBody_molecules]

/-- The instrumented loop computes the same final state as the loop. -/
theorem searchLoopCalls_fst {Mol FP : Type} (lib : ChemLib Mol FP) (query_fp : FP)
    (ms : List Molecule) (st : SearchState) :
    (searchLoopCalls lib query_fp st ms).1 = searchLoop lib query_fp st ms := by
  induction ms generalizing st with
  | nil => rfl
  | cons a rest ih =>
    show (searchLoopCalls lib query_fp (loopBody lib query_fp st a) rest).1 = _
    exact ih (loopBody lib query_fp st a)

/-- The instrumented loop invokes the external functions exactly once per
record, in list order. -/
theorem searchLoopCalls_snd {Mol FP : Type} (lib : ChemLib Mol FP) (query_fp : FP)
    (ms : List Molecule) (st : SearchState) :
    (searchLoopCalls lib query_fp st ms).2 = ms.map Molecule.smiles := by
  induction ms generalizing st with
  | nil => rfl
  | cons a rest ih =>
    show a.smiles :: (searchLoopCalls lib query_fp (loopBody lib query_fp st a) rest).2 = _
    rw [ih (loopBody lib query_fp st a)]
    rfl

/-- The loop agrees with the reference left fold over pairs. -/
theorem searchLoop_eq_foldl {Mol FP : Type} (lib : ChemLib Mol FP) (query_fp : FP)
    (ms : List Molecule) (st : SearchState) :
    (searchLoop lib query_fp st ms).max_similarity =
      (ms.foldl
        (fun acc test_mol =>
          if acc.1 < simTo lib query_fp test_mol.smiles ∧
              simTo lib query_fp test_mol.smiles < 1 then
            (simTo lib query_fp test_mol.smiles, some test_mol)
          else acc)
        (st.max_similarity, st.best_mol)).1 ∧
    (searchLoop lib query_fp st ms).best_mol =
      (ms.foldl
        (fun acc test_mol =>
          if acc.1 < simTo lib query_fp test_mol.smiles ∧
              simTo lib query_fp test_mol.smiles < 1 then
            (simTo lib query_fp test_mol.smiles, some test_mol)
          else acc)
        (st.max_similarity, st.best_mol)).2 := by
  induction ms generalizing st with
  | nil => exact ⟨rfl, rfl⟩
  | cons a rest ih =>
    have hstep :
        (((loopBody lib query_fp st a).max_similarity,
          (loopBody lib query_fp st a).best_mol) : ℚ × Option Molecule) =
        if st.max_similarity < simTo lib query_fp a.smiles ∧
            simTo lib query_fp a.smiles < 1 then
          (simTo lib query_fp a.smiles, some a)
        else (st.max_similarity, st.best_mol) := by
      by_cases hcond : st.max_similarity < simTo lib query_fp a.smiles ∧
          simTo lib query_fp a.smiles < 1
      · rw [loopBody_pos lib query_fp st a hcond]
        simp [hcond]
      · rw [loopBody_neg lib query_fp st a hcond]
        simp [hcond]
    obtain ⟨ih1, ih2⟩ := ih (loopBody lib query_fp st a)
    constructor
    · show (searchLoop lib query_fp (loopBody lib query_fp st a) rest).max_similarity = _
      rw [ih1, hstep, List.foldl_cons]
    · show (searchLoop lib query_fp (loopBody lib query_fp st a) rest).best_mol = _
      rw [ih2, hstep, List.foldl_cons]

/-- With at least as much fuel as there are records, the fuel-indexed
loop finishes and agrees with the loop. -/
theorem searchLoopFuel_of_le {Mol FP : Type} (lib : ChemLib Mol FP) (query_fp : FP)
    (ms : List Molecule) (fuel : Nat) (st : SearchState) (h : ms.length ≤ fuel) :
    searchLoopFuel lib query_fp fuel st ms = some (searchLoop lib query_fp st ms) := by
  induction ms generalizing fuel st with
  | nil => cases fuel <;> rfl
  | cons a rest ih =>
    cases fuel with
    | zero => exact absurd h (by simp)
    | succ f =>
      show searchLoopFuel lib query_fp f (loopBody lib query_fp st a) rest = _
      exact ih f (loopBody lib query_fp st a) (Nat.succ_le_succ_iff.mp h)

/-- Parsing a line with at least two tab-separated fields yields the
record made of field 0 and field 1, any further fields discarded. -/
theorem parseLine_of_two_fields (l : Str) (h : 2 ≤ (splitOnChar '\t' l).length) :
    parseLine l =
      some ⟨(splitOnChar '\t' l).getD 0 [], (splitOnChar '\t' l).getD 1 []⟩ := by
  rcases hsp : splitOnChar '\t' l with _ | ⟨e0, rest⟩
  · rw [hsp] at h
    exact absurd h (by decide)
  · rcases rest with _ | ⟨e1, rest'⟩
    · rw [hsp] at h
      exact absurd h (by simp)
    · simp [parseLine, hsp]

/-- When every line has at least two tab-separated fields, the parsing
loop succeeds and produces one record per line, in order. -/
theorem parseMolecules_of_fields (ls : List Str)
    (h : ∀ l ∈ ls, 2 ≤ (splitOnChar '\t' l).length) :
    parseMolecules ls =
      some (ls.map fun l =>
        (⟨(splitOnChar '\t' l).getD 0 [], (splitOnChar '\t' l).getD 1 []⟩ : Molecule)) := by
  induction ls with
  | nil => rfl
  | cons a rest ih =>
    have ha := parseLine_of_two_fields a (h a (List.mem_cons_self a rest))
    have hr := ih (fun l hl => h l (List.mem_cons_of_mem a hl))
    simp [parseMolecules, ha, hr]

/-- C1 (counterexample). The claim says `most_similar` returns the record
whose similarity is the maximum over all scanned records. On a database
containing the query itself (similarity 1) and a second record of
similarity 1/2, the function returns the second record, whose similarity
1/2 is not the maximum 1. -/
theorem C1_counterexample :
    most_similar exLib [⟨['a'], ['Q']⟩, ⟨['b'], ['X']⟩] ['Q'] = some ⟨['b'], ['X']⟩ ∧
    simTo exLib (exLib.RDKFingerprint (exLib.MolFromSmiles ['Q'])) ['X'] = mkRat 1 2 ∧
    simTo exLib (exLib.RDKFingerprint (exLib.MolFromSmiles ['Q'])) ['Q'] = 1 ∧
    ¬ ((1 : ℚ) ≤ mkRat 1 2) := by decide

/-- C1 (amended). Whenever `most_similar` returns a record, that record
is in the list, its similarity to the query is strictly below 1, and it
achieves the maximum similarity among the records whose similarity is
strictly below 1 — not among all records: records scoring 1 (or more)
are excluded by the update condition. -/
theorem C1_best_is_max_among_sub_one {Mol FP : Type} (lib : ChemLib Mol FP)
    (molecules : List Molecule) (query_smiles : Str) (m : Molecule)
    (h : most_similar lib molecules query_smiles = some m) :
    m ∈ molecules ∧
    simTo lib (lib.RDKFingerprint (lib.MolFromSmiles query_smiles)) m.smiles < 1 ∧
    ∀ m' ∈ molecules,
      simTo lib (lib.RDKFingerprint (lib.MolFromSmiles query_smiles)) m'.smiles < 1 →
      simTo lib (lib.RDKFingerprint (lib.MolFromSmiles query_smiles)) m'.smiles ≤
        simTo lib (lib.RDKFingerprint (lib.MolFromSmiles query_smiles)) m.smiles := by
  have h' : (searchLoop lib (lib.RDKFingerprint (lib.MolFromSmiles query_smiles))
      ⟨0, none, molecules⟩ molecules).best_mol = some m := h
  obtain ⟨h1, h2, h3⟩ := searchLoop_spec lib
    (lib.RDKFingerprint (lib.MolFromSmiles query_smiles)) molecules ⟨0, none, molecules⟩
  rcases h3 with ⟨hbeq, _⟩ | ⟨l₁, m₀, l₂, heq, hbm, hmm, hm1, _, _⟩
  · rw [h'] at hbeq
    exact absurd hbeq (by simp)
  · have hmim : m₀ = m := by
      rw [h'] at hbm
      exact (Option.some.injEq m₀ m) ▸ hbm.symm
    subst hmim
    refine ⟨?_, hm1, ?_⟩
    · rw [heq]
      exact List.mem_append.mpr (Or.inr (List.mem_cons_self m₀ l₂))
    · intro m' hm' hlt
      exact hmm ▸ h2 m' hm' hlt

/-- C1 (witness). The amended theorem applied to the counterexample
database: the returned record of similarity 1/2 is the maximum among the
records scoring strictly below 1. -/
theorem C1_witness :
    (⟨['b'], ['X']⟩ : Molecule) ∈ [(⟨['a'], ['Q']⟩ : Molecule), ⟨['b'], ['X']⟩] ∧
    simTo exLib (exLib.RDKFingerprint (exLib.MolFromSmiles ['Q']))
      (Molecule.mk ['b'] ['X']).smiles < 1 ∧
    ∀ m' ∈ [(⟨['a'], ['Q']⟩ : Molecule), ⟨['b'], ['X']⟩],
      simTo exLib (exLib.RDKFingerprint (exLib.MolFromSmiles ['Q'])) m'.smiles < 1 →
      simTo exLib (exLib.RDKFingerprint (exLib.MolFromSmiles ['Q'])) m'.smiles ≤
        simTo exLib (exLib.RDKFingerprint (exLib.MolFromSmiles ['Q']))
          (Molecule.mk ['b'] ['X']).smiles :=
  C1_best_is_max_among_sub_one exLib [⟨['a'], ['Q']⟩, ⟨['b'], ['X']⟩] ['Q']
    ⟨['b'], ['X']⟩ (by decide)

/-- C2. Whenever `most_similar` returns a record, its similarity to the
query is not 1, and among the records whose similarity is strictly below
1 it is the first (in list order) attaining the maximal such similarity:
every earlier record either scores at least 1 or scores strictly less. -/
theorem C2_never_one_and_first_max {Mol FP : Type} (lib : ChemLib Mol FP)
    (molecules : List Molecule) (query_smiles : Str) (m : Molecule)
    (h : most_similar lib molecules query_smiles = some m) :
    simTo lib (lib.RDKFingerprint (lib.MolFromSmiles query_smiles)) m.smiles ≠ 1 ∧
    ∃ l₁ l₂, molecules = l₁ ++ m :: l₂ ∧
      (∀ m' ∈ molecules,
        simTo lib (lib.RDKFingerprint (lib.MolFromSmiles query_smiles)) m'.smiles < 1 →
        simTo lib (lib.RDKFingerprint (lib.MolFromSmiles query_smiles)) m'.smiles ≤
          simTo lib (lib.RDKFingerprint (lib.MolFromSmiles query_smiles)) m.smiles) ∧
      (∀ m' ∈ l₁,
        simTo lib (lib.RDKFingerprint (lib.MolFromSmiles query_smiles)) m'.smiles < 1 →
        simTo lib (lib.RDKFingerprint (lib.MolFromSmiles query_smiles)) m'.smiles <
          simTo lib (lib.RDKFingerprint (lib.MolFromSmiles query_smiles)) m.smiles) := by
  have h' : (searchLoop lib (lib.RDKFingerprint (lib.MolFromSmiles query_smiles))
      ⟨0, none, molecules⟩ molecules).best_mol = some m := h
  obtain ⟨h1, h2, h3⟩ := searchLoop_spec lib
    (lib.RDKFingerprint (lib.MolFromSmiles query_smiles)) molecules ⟨0, none, molecules⟩
  rcases h3 with ⟨hbeq, _⟩ | ⟨l₁, m₀, l₂, heq, hbm, hmm, hm1, _, hfst⟩
  · rw [h'] at hbeq
    exact absurd hbeq (by simp)
  · have hmim : m₀ = m := by
      rw [h'] at hbm
      exact (Option.some.injEq m₀ m) ▸ hbm.symm
    subst hmim
    refine ⟨ne_of_lt hm1, l₁, l₂, heq, ?_, hfst⟩
    intro m' hm' hlt
    exact hmm ▸ h2 m' hm' hlt

/-- C2 (witness). On two records that tie at similarity 1/2, the first
of the two is returned and satisfies the stated decomposition. -/
theorem C2_witness :
    simTo exLib (exLib.RDKFingerprint (exLib.MolFromSmiles ['Q']))
      (Molecule.mk ['a'] ['X']).smiles ≠ 1 ∧
    ∃ l₁ l₂, [(⟨['a'], ['X']⟩ : Molecule), ⟨['c'], ['X']⟩] =
        l₁ ++ (⟨['a'], ['X']⟩ : Molecule) :: l₂ ∧
      (∀ m' ∈ [(⟨['a'], ['X']⟩ : Molecule), ⟨['c'], ['X']⟩],
        simTo exLib (exLib.RDKFingerprint (exLib.MolFromSmiles ['Q'])) m'.smiles < 1 →
        simTo exLib (exLib.RDKFingerprint (exLib.MolFromSmiles ['Q'])) m'.smiles ≤
          simTo exLib (exLib.RDKFingerprint (exLib.MolFromSmiles ['Q']))
            (Molecule.mk ['a'] ['X']).smiles) ∧
      (∀ m' ∈ l₁,
        simTo exLib (exLib.RDKFingerprint (exLib.MolFromSmiles ['Q'])) m'.smiles < 1 →
        simTo exLib (exLib.RDKFingerprint (exLib.MolFromSmiles ['Q'])) m'.smiles <
          simTo exLib (exLib.RDKFingerprint (exLib.MolFromSmiles ['Q']))
            (Molecule.mk ['a'] ['X']).smiles) :=
  C2_never_one_and_first_max exLib [⟨['a'], ['X']⟩, ⟨['c'], ['X']⟩] ['Q']
    ⟨['a'], ['X']⟩ (by decide)

/-- C3. When the record list is empty, or every record's similarity to
the query is 0 or exactly 1, no iteration assigns `best_mol`, and
`most_similar` fails (Python's `UnboundLocalError`, embedded `none`)
instead of returning a record. -/
theorem C3_degenerate_returns_none {Mol FP : Type} (lib : ChemLib Mol FP)
    (molecules : List Molecule) (query_smiles : Str)
    (h : molecules = [] ∨ ∀ m ∈ molecules,
      simTo lib (lib.RDKFingerprint (lib.MolFromSmiles query_smiles)) m.smiles = 0 ∨
      simTo lib (lib.RDKFingerprint (lib.MolFromSmiles query_smiles)) m.smiles = 1) :
    most_similar lib molecules query_smiles = none := by
  rcases h with h | h
  · subst h
    rfl
  · show (searchLoop lib (lib.RDKFingerprint (lib.MolFromSmiles query_smiles))
      ⟨0, none, molecules⟩ molecules).best_mol = none
    rw [searchLoop_const_of_degenerate lib
      (lib.RDKFingerprint (lib.MolFromSmiles query_smiles)) molecules
      ⟨0, none, molecules⟩ (le_refl 0) h]

/-- C3 (witness). A database whose only record is the query itself
(similarity exactly 1) makes `most_similar` fail. -/
theorem C3_witness :
    (∀ m ∈ [(⟨['a'], ['Q']⟩ : Molecule)],
      simTo exLib (exLib.RDKFingerprint (exLib.MolFromSmiles ['Q'])) m.smiles = 0 ∨
      simTo exLib (exLib.RDKFingerprint (exLib.MolFromSmiles ['Q'])) m.smiles = 1) ∧
    most_similar exLib [⟨['a'], ['Q']⟩] ['Q'] = none :=
  ⟨by decide, C3_degenerate_returns_none exLib [⟨['a'], ['Q']⟩] ['Q'] (Or.inr (by decide))⟩

/-- C4 (counterexample). The claim says every failure originates in the
external library. Here every external function is total (`exLib`), yet
the search fails on a database whose one record scores 0 (the
`UnboundLocalError` of `most_similar`), and loading fails on a one-line
file (the `IndexError` of `del lines[-1]`): both failures originate in
the repository's own code. -/
theorem C4_counterexample :
    most_similar exLib [⟨['d'], ['Z']⟩] ['Q'] = none ∧
    loadMolecules ['x'] = none := by decide

/-- C4 (amended). The repository's code indeed installs no exception
handler, but it does fail on its own: for every external library — all
of whose functions are total in this embedding — `most_similar` on an
empty record list fails with `UnboundLocalError` (embedded `none`), a
failure no library call produced. -/
theorem C4_own_failure {Mol FP : Type} (lib : ChemLib Mol FP) (query_smiles : Str) :
    most_similar lib [] query_smiles = none := rfl

/-- C5 (counterexample). The claim says loading works for every file
content and yields lines-minus-two records. A content with no newline
splits into a single line, so after `del lines[0]` the list is empty and
`del lines[-1]` raises `IndexError`: loading fails instead of producing
`1 - 2` records. -/
theorem C5_counterexample :
    (splitOnChar '\n' ['a', '\t', 'b']).length = 1 ∧
    loadMolecules ['a', '\t', 'b'] = none := by decide

/-- C5 (amended). For every file content with at least two
newline-separated lines, and whose lines other than the first and the
last each contain a tab, loading deletes the first and the last line and
turns each remaining line into the record made of tab-field 0 (name) and
tab-field 1 (SMILES), discarding further fields; the number of records
is the number of lines minus two. -/
theorem C5_load_shape (contents : Str)
    (h1 : 2 ≤ (splitOnChar '\n' contents).length)
    (h2 : ∀ l ∈ middleLines contents, 2 ≤ (splitOnChar '\t' l).length) :
    loadMolecules contents =
      some ((middleLines contents).map fun l =>
        (⟨(splitOnChar '\t' l).getD 0 [], (splitOnChar '\t' l).getD 1 []⟩ : Molecule)) ∧
    ((middleLines contents).map fun l =>
      (⟨(splitOnChar '\t' l).getD 0 [], (splitOnChar '\t' l).getD 1 []⟩ : Molecule)).length =
      (splitOnChar '\n' contents).length - 2 := by
  rcases hsp : splitOnChar '\n' contents with _ | ⟨a, rest⟩
  · rw [hsp] at h1
    exact absurd h1 (by decide)
  · have hm : middleLines contents = rest.dropLast := by
      simp [middleLines, hsp]
    have hne : ¬ rest = [] := by
      rw [hsp] at h1
      intro hre
      subst hre
      exact absurd h1 (by simp)
    have h2' : ∀ l ∈ rest.dropLast, 2 ≤ (splitOnChar '\t' l).length := by
      rw [hm] at h2
      exact h2
    constructor
    · have hload : loadMolecules contents = parseMolecules rest.dropLast := by
        simp [loadMolecules, hsp, hne]
      rw [hload, hm]
      exact parseMolecules_of_fields rest.dropLast h2'
    · simp only [hm, hsp, List.length_map, List.length_dropLast, List.length_cons]
      omega

/-- C5 (witness). A two-record-shaped file with header and trailing
newline loads into exactly one record, name `a` and SMILES `Q`. -/
theorem C5_witness :
    2 ≤ (splitOnChar '\n' "N\tS\na\tQ\n".toList).length ∧
    (∀ l ∈ middleLines "N\tS\na\tQ\n".toList, 2 ≤ (splitOnChar '\t' l).length) ∧
    (loadMolecules "N\tS\na\tQ\n".toList =
      some ((middleLines "N\tS\na\tQ\n".toList).map fun l =>
        (⟨(splitOnChar '\t' l).getD 0 [], (splitOnChar '\t' l).getD 1 []⟩ : Molecule)) ∧
    ((middleLines "N\tS\na\tQ\n".toList).map fun l =>
      (⟨(splitOnChar '\t' l).getD 0 [], (splitOnChar '\t' l).getD 1 []⟩ : Molecule)).length =
      (splitOnChar '\n' "N\tS\na\tQ\n".toList).length - 2) :=
  ⟨by decide, by decide, C5_load_shape "N\tS\na\tQ\n".toList (by decide) (by decide)⟩

/-- C6. The search reads the global `molecules` list but never mutates
it: the state after `most_similar` runs carries exactly the record list
it started with, element for element. -/
theorem C6_search_leaves_molecules {Mol FP : Type} (lib : ChemLib Mol FP)
    (query_smiles : Str) (st : SearchState) :
    (runSearch lib query_smiles st).molecules = st.molecules ∧
    ∀ i : Nat, (runSearch lib query_smiles st).molecules.getD i ⟨[], []⟩ =
      st.molecules.getD i ⟨[], []⟩ := by
  have h : (runSearch lib query_smiles st).molecules = st.molecules :=
    searchLoop_molecules lib (lib.RDKFingerprint (lib.MolFromSmiles query_smiles))
      st.molecules st
  exact ⟨h, fun i => by rw [h]⟩

/-- C7. The search is exactly a linear scan: `most_similar` equals the
reference left fold `mostSimilarFold` over the record list; the
instrumented loop computes the same state as the loop, and the sequence
of SMILES strings handed to the external fingerprint and similarity
machinery is the query followed by every record's SMILES exactly once,
in list order. -/
theorem C7_scan_refines_fold {Mol FP : Type} (lib : ChemLib Mol FP)
    (molecules : List Molecule) (query_smiles : Str) :
    most_similar lib molecules query_smiles = mostSimilarFold lib molecules query_smiles ∧
    (searchLoopCalls lib (lib.RDKFingerprint (lib.MolFromSmiles query_smiles))
        ⟨0, none, molecules⟩ molecules).1 =
      searchLoop lib (lib.RDKFingerprint (lib.MolFromSmiles query_smiles))
        ⟨0, none, molecules⟩ molecules ∧
    mostSimilarCalls lib molecules query_smiles =
      query_smiles :: molecules.map Molecule.smiles := by
  refine ⟨?_, ?_, ?_⟩
  · exact (searchLoop_eq_foldl lib (lib.RDKFingerprint (lib.MolFromSmiles query_smiles))
      molecules ⟨0, none, molecules⟩).2
  · exact searchLoopCalls_fst lib (lib.RDKFingerprint (lib.MolFromSmiles query_smiles))
      molecules ⟨0, none, molecules⟩
  · show query_smiles ::
      (searchLoopCalls lib (lib.RDKFingerprint (lib.MolFromSmiles query_smiles))
        ⟨0, none, molecules⟩ molecules).2 = _
    rw [searchLoopCalls_snd]

/-- C8. The search terminates for every finite record list: with one
unit of fuel per record the fuel-indexed loop finishes and computes the
same final state the loop does, whose `best_mol` is the value
`most_similar` returns. -/
theorem C8_terminates {Mol FP : Type} (lib : ChemLib Mol FP)
    (molecules : List Molecule) (query_smiles : Str) :
    searchLoopFuel lib (lib.RDKFingerprint (lib.MolFromSmiles query_smiles))
        molecules.length ⟨0, none, molecules⟩ molecules =
      some (searchLoop lib (lib.RDKFingerprint (lib.MolFromSmiles query_smiles))
        ⟨0, none, molecules⟩ molecules) ∧
    most_similar lib molecules query_smiles =
      (searchLoop lib (lib.RDKFingerprint (lib.MolFromSmiles query_smiles))
        ⟨0, none, molecules⟩ molecules).best_mol :=
  ⟨searchLoopFuel_of_le lib (lib.RDKFingerprint (lib.MolFromSmiles query_smiles))
      molecules molecules.length ⟨0, none, molecules⟩ (le_refl _), rfl⟩

/-- C9. The run is a function of the file contents, the console input
and the external library alone: two worlds agreeing on those two inputs
— whatever their other files, shared state or schedule — produce the
same loaded record list, the same best record and the same reported name
and SMILES. -/
theorem C9_deterministic {Mol FP : Type} (lib : ChemLib Mol FP) (w₁ w₂ : World)
    (hf : w₁.fileContents = w₂.fileContents)
    (hc : w₁.consoleInput = w₂.consoleInput) :
    programRun lib w₁ = programRun lib w₂ := by
  simp only [programRun, hf, hc]

/-- C9 (witness). Two worlds with the same file and console input but
different ambient files, shared state and schedule produce identical
runs. -/
theorem C9_witness :
    (World.mk "N\tS\na\tX\n".toList ['Q'] [] [0] [1]).fileContents =
      (World.mk "N\tS\na\tX\n".toList ['Q'] [['z']] [2, 3] []).fileContents ∧
    (World.mk "N\tS\na\tX\n".toList ['Q'] [] [0] [1]).consoleInput =
      (World.mk "N\tS\na\tX\n".toList ['Q'] [['z']] [2, 3] []).consoleInput ∧
    programRun exLib (World.mk "N\tS\na\tX\n".toList ['Q'] [] [0] [1]) =
      programRun exLib (World.mk "N\tS\na\tX\n".toList ['Q'] [['z']] [2, 3] []) :=
  ⟨rfl, rfl, C9_deterministic exLib
    (World.mk "N\tS\na\tX\n".toList ['Q'] [] [0] [1])
    (World.mk "N\tS\na\tX\n".toList ['Q'] [['z']] [2, 3] []) rfl rfl⟩

/-- C10. A file whose middle line `foo bar` has no tab makes the parsing
loop fail when it indexes field 1 (`IndexError`): that line parses to
`none`, it is a non-header non-final line of the file, and loading the
whole file fails rather than producing a partial record. -/
theorem C10_tabless_line_fails :
    parseLine "foo bar".toList = none ∧
    "foo bar".toList ∈ middleLines "N\tS\nfoo bar\ne\t1\n".toList ∧
    loadMolecules "N\tS\nfoo bar\ne\t1\n".toList = none := by decide

end Chemistry
